import Mathlib

/-!
Verification of the WHOIS & DNS recon tool (src/recon_tool.py).

The program is a straight-line lookup-and-report utility: it normalizes the
response of an external WHOIS client, issues a fixed set of DNS queries
through an external resolver, renders the results, and optionally exports
them to JSON or CSV.  The two external services are modelled as oracles:
the WHOIS client either raises (an `Except.error` carrying the exception's
string form) or returns a structured object, and the DNS resolver maps a
(name, record-type) pair to one of four outcomes, mirroring the exception
classes the code catches.  Everything downstream of those oracles is
translated directly from the source.
-/

set_option maxHeartbeats 1000000

namespace Recon

/-! ## Python string primitives

Core's byte-position-based `String` functions (`String.ltb`,
`String.toLower`, `String.startsWith`) do not reduce in the kernel, so the
Python operations are modelled on the character list `s.data`, which is
also the semantics Python gives them (code-point-wise). -/

/-- Python `s.lower()` restricted to ASCII letters (the only characters the
program ever compares after lowering). -/
def pyLower (s : String) : String := ⟨s.data.map Char.toLower⟩

/-- Python `s.startswith(p)`. -/
def pyStartsWith (s p : String) : Bool := p.data.isPrefixOf s.data

/-- Code-point lexicographic `a ≤ b` on character lists: Python's string
comparison. -/
def lexLe : List Char → List Char → Bool
  | [], _ => true
  | _ :: _, [] => false
  | a :: as, b :: bs =>
    if a.toNat < b.toNat then true
    else if b.toNat < a.toNat then false
    else lexLe as bs

/-- Python's `≤` on strings (code-point lexicographic). -/
def pyStrLe (a b : String) : Prop := lexLe a.data b.data = true

instance : DecidableRel pyStrLe := fun a b => by unfold pyStrLe; infer_instance

/-! ## DNS gatherer (recon_tool.py lines 64-85) -/

/-- Outcome of one call to `dns.resolver.resolve(name, rtype)`, as
distinguished by the `except` clauses of `dns_query`: a successful answer
(the `to_text()` of each answer record, in resolver order), an `NXDOMAIN`
exception, a `NoAnswer` exception, or any other `DNSException` carrying a
message (its `str()`). -/
inductive DnsOutcome where
  | success (answers : List String)
  | nxdomain
  | noAnswer
  | dnsError (msg : String)
deriving DecidableEq

/-- The external resolver, as an oracle from (name, record type) to outcome. -/
abbrev Resolver := String → String → DnsOutcome

/-- `dns_query(domain, rtype)` (lines 64-73): returns the textual answers on
success, `["NXDOMAIN"]` on an NXDOMAIN exception, `[]` on NoAnswer, and
`["DNS error: <message>"]` on any other DNSException. -/
def dns_query (R : Resolver) (domain : String) (rtype : String) : List String :=
  match R domain rtype with
  | .success answers => answers
  | .nxdomain => ["NXDOMAIN"]
  | .noAnswer => []
  | .dnsError msg => ["DNS error: " ++ msg]

/-- The six base record types queried by `gather_dns`, in program order. -/
def baseTypes : List String := ["A", "AAAA", "MX", "TXT", "NS", "CNAME"]

/-- `gather_dns(domain)` (lines 75-85).  The Python dict preserves insertion
order, so it is modelled as an association list: the six base types first
(each from one `dns_query` call), then the derived `SPF` entry (filter of
the `TXT` values) and the `DMARC` entry (filter of one extra `TXT` query
against `_dmarc.<domain>`).  `records["TXT"]` is a lookup that always
succeeds because `"TXT"` is among the keys just inserted; `getD []` renders
the same total value. -/
def gather_dns (R : Resolver) (domain : String) : List (String × List String) :=
  let records := baseTypes.map (fun rt => (rt, dns_query R domain rt))
  let txtVals := (records.lookup "TXT").getD []
  let spf := txtVals.filter (fun t => pyStartsWith (pyLower t) "v=spf1")
  let dmarc0 := dns_query R ("_dmarc." ++ domain) "TXT"
  let dmarc := dmarc0.filter (fun t => pyStartsWith (pyLower t) "v=dmarc1")
  records ++ [("SPF", spf), ("DMARC", dmarc)]

/-- Instrumented copy of `gather_dns` that additionally records, in order,
the (name, record-type) argument pair of every `dns_query` call the body
makes: one per entry of `baseTypes` in the loop, plus the final
`_dmarc.<domain>` TXT probe. -/
def gather_dnsT (R : Resolver) (domain : String) :
    (List (String × List String)) × List (String × String) :=
  (gather_dns R domain,
   baseTypes.map (fun rt => (domain, rt)) ++ [("_dmarc." ++ domain, "TXT")])

/-! ## WHOIS normalizer (recon_tool.py lines 27-62) -/

/-- A JSON-serializable value as appearing in the dict built by
`whois_lookup`: Python `None`, a string, or a list of strings. -/
inductive JVal where
  | null
  | str (s : String)
  | list (xs : List String)
deriving DecidableEq

/-- A datetime value as the `whois` library returns it; only the six fields
used by `strftime("%Y-%m-%d %H:%M:%S")` are modelled. -/
structure PyDatetime where
  year : Nat
  month : Nat
  day : Nat
  hour : Nat
  minute : Nat
  second : Nat
deriving DecidableEq

/-- Zero-pad to two digits, as `%m`, `%d`, `%H`, `%M`, `%S` do. -/
def pad2 (n : Nat) : String :=
  if n < 10 then "0" ++ toString n else toString n

/-- Zero-pad to four digits, as `%Y` does. -/
def pad4 (n : Nat) : String :=
  if n < 10 then "000" ++ toString n
  else if n < 100 then "00" ++ toString n
  else if n < 1000 then "0" ++ toString n
  else toString n

/-- `d.strftime("%Y-%m-%d %H:%M:%S")` for a datetime-like value. -/
def strftimeYmdHms (t : PyDatetime) : String :=
  pad4 t.year ++ "-" ++ pad2 t.month ++ "-" ++ pad2 t.day ++ " " ++
    pad2 t.hour ++ ":" ++ pad2 t.minute ++ ":" ++ pad2 t.second

/-- A scalar date-field value from the WHOIS client: `None`, a
datetime-like object (whose `strftime` succeeds), or any other object,
carried with its Python truthiness and its `str()` form (`strftime` on it
raises, so `fmt_date` falls back to `str`). -/
inductive DateScalar where
  | pynone
  | dt (t : PyDatetime)
  | plain (truthy : Bool) (s : String)
deriving DecidableEq

/-- A date-field value: either a scalar or a list/tuple of scalars
(the whois library sometimes returns a list of candidate dates). -/
inductive DateVal where
  | scalar (v : DateScalar)
  | seq (xs : List DateScalar)
deriving DecidableEq

/-- Python truthiness of a `DateScalar`: `None` is falsy, a datetime is
truthy, other objects carry their own truthiness. -/
def scalarTruthy : DateScalar → Bool
  | .pynone => false
  | .dt _ => true
  | .plain b _ => b

/-- Python truthiness of a `DateVal` (`not d` in the source): a list/tuple
is truthy iff nonempty. -/
def dateTruthy : DateVal → Bool
  | .scalar v => scalarTruthy v
  | .seq xs => !xs.isEmpty

/-- The `try: return d.strftime(...) except: return str(d)` body of
`fmt_date` applied to a scalar: datetimes format, `None` raises inside
`strftime` and falls back to `str(None) = "None"`, anything else falls
back to its `str()` form. -/
def fmtScalar : DateScalar → String
  | .pynone => "None"
  | .dt t => strftimeYmdHms t
  | .plain _ s => s

/-- `fmt_date(d)` (lines 41-50): `None` for falsy input, otherwise take the
first element when the value is a list/tuple, then try `strftime` with
fallback to `str`.  The `.seq []` branch is unreachable (an empty sequence
is falsy) but written out for totality. -/
def fmt_date (d : DateVal) : Option String :=
  if !dateTruthy d then none
  else
    match d with
    | .scalar v => some (fmtScalar v)
    | .seq [] => none
    | .seq (x :: _) => some (fmtScalar x)

/-- A scalar-or-sequence attribute value, as accepted by `safe_list`
(line 27): `None`, a single string, or a list/tuple/set of strings. -/
inductive NsVal where
  | pynone
  | scalar (s : String)
  | listv (xs : List String)
deriving DecidableEq

/-- `safe_list(x)` (lines 27-32). -/
def safe_list : NsVal → List String
  | .pynone => []
  | .scalar s => [s]
  | .listv xs => xs

/-- Python `s.strip(".")`: remove leading and trailing `'.'` characters
(and nothing else). -/
def stripDots (s : String) : String :=
  ⟨((s.data.dropWhile (fun c => c = '.')).reverse.dropWhile (fun c => c = '.')).reverse⟩

/-- Python `sorted` on a collection of strings: ascending by code-point
lexicographic order. -/
def pySorted (l : List String) : List String :=
  l.insertionSort pyStrLe

/-- The name-server normalization of line 58:
`sorted({ns.strip(".") for ns in safe_list(...) if ns})` — filter out falsy
(empty) entries, strip leading/trailing dots, deduplicate via a set, sort
ascending. -/
def normalize_ns (v : NsVal) : List String :=
  pySorted ((((safe_list v).filter (fun ns => ns ≠ "")).map stripDots).dedup)

/-- The structured object returned by a successful `whois.whois(domain)`
call, restricted to the attributes the program reads.  An absent attribute
is modelled by the `getattr` default the code supplies: `None` for
`registrar` and the date fields, `[]` for `name_servers` and `status`,
`""` for `text`.  `text` is carried as its `str()` form. -/
structure WhoisObj where
  registrar : Option String
  creation_date : DateVal
  expiration_date : DateVal
  updated_date : DateVal
  name_servers : NsVal
  status : NsVal
  text : String

/-- Python slicing `s[:2000]` on a string (by characters). -/
def pyTake2000 (s : String) : String := ⟨s.data.take 2000⟩

/-- `whois_lookup(domain)` (lines 34-62).  The client oracle either raises
(`Except.error` with the exception's string form) or returns a `WhoisObj`.
The returned dict is modelled as an association list in insertion order. -/
def whois_lookup (domain : String) (client : Except String WhoisObj) :
    List (String × JVal) :=
  match client with
  | .error e => [("error", .str ("WHOIS failed: " ++ e))]
  | .ok w =>
    [("domain", .str domain),
     ("registrar", match w.registrar with | none => .null | some s => .str s),
     ("creation_date", match fmt_date w.creation_date with | none => .null | some s => .str s),
     ("expiration_date", match fmt_date w.expiration_date with | none => .null | some s => .str s),
     ("updated_date", match fmt_date w.updated_date with | none => .null | some s => .str s),
     ("name_servers", .list (normalize_ns w.name_servers)),
     ("status", .list (safe_list w.status)),
     ("raw", .str (pyTake2000 w.text))]

/-! ## Recon result and exporters (recon_tool.py lines 128-182) -/

/-- The `out_data` dict assembled by `run` (line 172): the target domain,
the normalized WHOIS dict, the gathered DNS mapping, and the export-time
UTC timestamp string. -/
structure ReconData where
  domain : String
  whois : List (String × JVal)
  dns : List (String × List String)
  timestamp_utc : String

/-- Python `w.get(k)`: the value at `k`, or `None` when absent. -/
def dictGet (w : List (String × JVal)) (k : String) : JVal :=
  (w.lookup k).getD .null

/-- Python `w.get(k) or []` where the present value is a list of strings:
absent, `None` and empty-list values all give `[]`. -/
def getJoinList (w : List (String × JVal)) (k : String) : List String :=
  match w.lookup k with
  | some (.list xs) => xs
  | _ => []

/-- Python `";".join(xs)`. -/
def semijoin (xs : List String) : String := String.intercalate ";" xs

/-- The row list built by `to_csv` (lines 132-160), before CSV character
escaping: a header row; then either the single WHOIS error row (when the
whois dict has an `error` key) or the seven WHOIS field rows; then, per
DNS entry in mapping order, a `-` row when the value list is empty and
one row per value otherwise.  Cells hold the Python values placed in
`rows` (strings, or `None` for absent WHOIS fields). -/
def to_csv_rows (data : ReconData) : List (List JVal) :=
  let rows : List (List JVal) := [[.str "Section", .str "Key", .str "Value"]]
  let rows := rows ++
    (if (data.whois.lookup "error").isSome then
      [[.str "WHOIS", .str "error", dictGet data.whois "error"]]
    else
      [[.str "WHOIS", .str "domain", dictGet data.whois "domain"],
       [.str "WHOIS", .str "registrar", dictGet data.whois "registrar"],
       [.str "WHOIS", .str "creation_date", dictGet data.whois "creation_date"],
       [.str "WHOIS", .str "updated_date", dictGet data.whois "updated_date"],
       [.str "WHOIS", .str "expiration_date", dictGet data.whois "expiration_date"],
       [.str "WHOIS", .str "name_servers", .str (semijoin (getJoinList data.whois "name_servers"))],
       [.str "WHOIS", .str "status", .str (semijoin (getJoinList data.whois "status"))]])
  rows ++ data.dns.flatMap (fun p =>
    if p.2.isEmpty then [[.str "DNS", .str p.1, .str "-"]]
    else p.2.map (fun v => [.str "DNS", .str p.1, .str v]))

/-- The externally visible effect of the export block at the end of `run`
(lines 174-182). -/
inductive ExportAction where
  | wroteJson (path : String)
  | wroteCsv (path : String)
  | printedUnknownFormat
  | noExport
deriving DecidableEq

/-- The export dispatch of `run` (lines 174-182): `if out:` (Python
truthiness, so `None` and `""` skip exporting), then `fmt.lower()` selects
the JSON or CSV exporter, and any other value prints the unknown-format
message and writes nothing.  All branches return normally: the unknown
format is non-fatal and the run completes. -/
def run_export (out : Option String) (fmt : String) : ExportAction :=
  match out with
  | none => .noExport
  | some path =>
    if path = "" then .noExport
    else if pyLower fmt = "json" then .wroteJson path
    else if pyLower fmt = "csv" then .wroteCsv path
    else .printedUnknownFormat

/-! ## Concrete oracles and data used by witnesses and examples -/

/-- A concrete resolver exercising all three failure outcomes. -/
def failResolver : Resolver := fun _ rt =>
  if rt = "A" then .nxdomain
  else if rt = "MX" then .noAnswer
  else .dnsError "boom"

/-- A concrete resolver returning the claim's TXT values for
`example.com`. -/
def spfExampleResolver : Resolver := fun n rt =>
  if n = "example.com" ∧ rt = "TXT" then
    .success ["v=spf1 include:_spf.example.com ~all", "unrelated"]
  else .noAnswer

/-- A concrete error-free whois dict (shape of a successful
`whois_lookup`). -/
def exampleWhois : List (String × JVal) :=
  [("domain", .str "example.com"), ("registrar", .null), ("creation_date", .null),
   ("expiration_date", .null), ("updated_date", .null),
   ("name_servers", .list ["ns1.example.com"]), ("status", .list []), ("raw", .str "")]

/-- The claim's concrete DNS mapping: `A = ["1.2.3.4"]` and `MX = []`. -/
def exampleDns : List (String × List String) := [("A", ["1.2.3.4"]), ("MX", [])]

/-- A concrete ReconResult with an error-free WHOIS record. -/
def exampleRecon : ReconData :=
  ⟨"example.com", exampleWhois, exampleDns, "2026-10-12T00:00:00"⟩

/-- A concrete ReconResult whose WHOIS lookup failed. -/
def errorRecon : ReconData :=
  ⟨"example.com", [("error", .str "WHOIS failed: boom")], exampleDns, "2026-10-12T00:00:00"⟩

/-! ## JSON serialization (to_json, lines 128-130)

`to_json` writes `json.dump(data, f, indent=2, ensure_ascii=False)`.  The
values serialized by this program are `None`, strings, lists of strings
and string-keyed dicts, so the JSON value type is restricted to those
shapes (no numbers or booleans ever reach the serializer).  The printer
reproduces CPython's `json` output for `indent=2` (item separator
`','` + newline, key separator `': '`, `ensure_ascii=False` so only `"`,
`\` and control characters are escaped); the parser is a standard
recursive-descent JSON reader for the same fragment, with which the
serialize-then-parse round trip of claim C9 is stated. -/

mutual
inductive PJson where
  | null
  | str (s : String)
  | arr (xs : PArr)
  | obj (kvs : PObj)
inductive PArr where
  | nil
  | cons (hd : PJson) (tl : PArr)
inductive PObj where
  | nil
  | cons (k : String) (v : PJson) (tl : PObj)
end

/-- The opening-brace character. -/
def lbrace : Char := '\x7b'

/-- The closing-brace character. -/
def rbrace : Char := '\x7d'

/-- Lowercase hex digit for `n < 16`, as CPython's `'\u00xx'` escapes
use. -/
def hexDigitChar (n : Nat) : Char :=
  if n < 10 then Char.ofNat (48 + n) else Char.ofNat (87 + n)

/-- CPython `json` string escaping with `ensure_ascii=False`: quote,
backslash and the shorthand control escapes, `\u00xx` for the remaining
control characters, all other characters literal. -/
def escapeChar (c : Char) : List Char :=
  if c = '\"' then ['\\', '\"']
  else if c = '\\' then ['\\', '\\']
  else if c = '\n' then ['\\', 'n']
  else if c = '\t' then ['\\', 't']
  else if c = '\r' then ['\\', 'r']
  else if c = Char.ofNat 8 then ['\\', 'b']
  else if c = Char.ofNat 12 then ['\\', 'f']
  else if c.toNat < 32 then
    ['\\', 'u', '0', '0', hexDigitChar (c.toNat / 16), hexDigitChar (c.toNat % 16)]
  else [c]

/-- Escape every character of a string body. -/
def escapeList (cs : List Char) : List Char := cs.flatMap escapeChar

/-- A JSON string literal: quote, escaped body, quote. -/
def printString (s : String) : List Char := '\"' :: (escapeList s.data ++ ['\"'])

/-- An indentation run of `n` spaces. -/
def spaces (n : Nat) : List Char := List.replicate n ' '

mutual
/-- Print a JSON value at nesting level `lvl`, exactly as
`json.dump(v, indent=2, ensure_ascii=False)` lays it out. -/
def printVal (lvl : Nat) : PJson → List Char
  | .null => ['n', 'u', 'l', 'l']
  | .str s => printString s
  | .arr .nil => ['[', ']']
  | .arr (.cons h t) =>
    '[' :: '\n' :: (spaces ((lvl + 1) * 2) ++ printVal (lvl + 1) h ++ printArrTail (lvl + 1) t
      ++ '\n' :: (spaces (lvl * 2) ++ [']']))
  | .obj .nil => [lbrace, rbrace]
  | .obj (.cons k v t) =>
    lbrace :: '\n' :: (spaces ((lvl + 1) * 2) ++ printString k ++ ':' :: ' ' ::
      printVal (lvl + 1) v ++ printObjTail (lvl + 1) t ++ '\n' :: (spaces (lvl * 2) ++ [rbrace]))
/-- Print the remaining array items, each preceded by `,\n` and indent. -/
def printArrTail (lvl : Nat) : PArr → List Char
  | .nil => []
  | .cons h t => ',' :: '\n' :: (spaces (lvl * 2) ++ printVal lvl h ++ printArrTail lvl t)
/-- Print the remaining object members, each preceded by `,\n` and
indent. -/
def printObjTail (lvl : Nat) : PObj → List Char
  | .nil => []
  | .cons k v t =>
    ',' :: '\n' :: (spaces (lvl * 2) ++ printString k ++ ':' :: ' ' :: printVal lvl v ++
      printObjTail lvl t)
end

/-- JSON insignificant whitespace. -/
def isWs (c : Char) : Bool := c = ' ' || c = '\n' || c = '\t' || c = '\r'

/-- Drop leading whitespace. -/
def skipWs : List Char → List Char
  | [] => []
  | c :: rest => if isWs c then skipWs rest else c :: rest

/-- Hex digit value (JSON `\uXXXX` accepts either case). -/
def hexValOf (c : Char) : Option Nat :=
  if 48 ≤ c.toNat ∧ c.toNat ≤ 57 then some (c.toNat - 48)
  else if 97 ≤ c.toNat ∧ c.toNat ≤ 102 then some (c.toNat - 87)
  else if 65 ≤ c.toNat ∧ c.toNat ≤ 70 then some (c.toNat - 55)
  else none

/-- Parse a JSON string body after the opening quote: literal characters
until the closing quote, with the standard escapes.  Returns the decoded
characters and the input after the closing quote. -/
def parseStringAux : List Char → Option (List Char × List Char)
  | [] => none
  | c :: rest =>
    if c = '\"' then some ([], rest)
    else if c = '\\' then
      match rest with
      | [] => none
      | e :: rest2 =>
        if e = '\"' then (parseStringAux rest2).map (fun p => ('\"' :: p.1, p.2))
        else if e = '\\' then (parseStringAux rest2).map (fun p => ('\\' :: p.1, p.2))
        else if e = '/' then (parseStringAux rest2).map (fun p => ('/' :: p.1, p.2))
        else if e = 'n' then (parseStringAux rest2).map (fun p => ('\n' :: p.1, p.2))
        else if e = 't' then (parseStringAux rest2).map (fun p => ('\t' :: p.1, p.2))
        else if e = 'r' then (parseStringAux rest2).map (fun p => ('\r' :: p.1, p.2))
        else if e = 'b' then (parseStringAux rest2).map (fun p => (Char.ofNat 8 :: p.1, p.2))
        else if e = 'f' then (parseStringAux rest2).map (fun p => (Char.ofNat 12 :: p.1, p.2))
        else if e = 'u' then
          match rest2 with
          | h1 :: h2 :: h3 :: h4 :: rest3 =>
            match hexValOf h1, hexValOf h2, hexValOf h3, hexValOf h4 with
            | some a, some b, some c2, some d =>
              (parseStringAux rest3).map
                (fun p => (Char.ofNat (((a * 16 + b) * 16 + c2) * 16 + d) :: p.1, p.2))
            | _, _, _, _ => none
          | _ => none
        else none
    else (parseStringAux rest).map (fun p => (c :: p.1, p.2))

mutual
/-- Fuel-indexed recursive-descent parser for a JSON value of the
fragment the program serializes (`null`, strings, arrays, objects). -/
def parseValue : Nat → List Char → Option (PJson × List Char)
  | 0, _ => none
  | fuel + 1, input =>
    match skipWs input with
    | [] => none
    | c :: rest =>
      if c = 'n' then
        match rest with
        | c1 :: c2 :: c3 :: rest2 =>
          if c1 = 'u' ∧ c2 = 'l' ∧ c3 = 'l' then some (.null, rest2) else none
        | _ => none
      else if c = '\"' then
        (parseStringAux rest).map (fun p => (.str ⟨p.1⟩, p.2))
      else if c = '[' then
        match skipWs rest with
        | [] => none
        | c2 :: rest2 =>
          if c2 = ']' then some (.arr .nil, rest2)
          else (parseItems fuel (c2 :: rest2)).map (fun p => (.arr p.1, p.2))
      else if c = lbrace then
        match skipWs rest with
        | [] => none
        | c2 :: rest2 =>
          if c2 = rbrace then some (.obj .nil, rest2)
          else (parseMembers fuel (c2 :: rest2)).map (fun p => (.obj p.1, p.2))
      else none
/-- Parse one or more comma-separated array items up to the closing
bracket. -/
def parseItems : Nat → List Char → Option (PArr × List Char)
  | 0, _ => none
  | fuel + 1, input =>
    match parseValue fuel input with
    | none => none
    | some (v, r) =>
      match skipWs r with
      | [] => none
      | c :: r2 =>
        if c = ',' then
          match parseItems fuel r2 with
          | some (vs, r3) => some (.cons v vs, r3)
          | none => none
        else if c = ']' then some (.cons v .nil, r2)
        else none
/-- Parse one or more comma-separated `"key": value` members up to the
closing brace. -/
def parseMembers : Nat → List Char → Option (PObj × List Char)
  | 0, _ => none
  | fuel + 1, input =>
    match skipWs input with
    | [] => none
    | c :: r =>
      if c = '\"' then
        match parseStringAux r with
        | none => none
        | some (kcs, r2) =>
          match skipWs r2 with
          | [] => none
          | c2 :: r3 =>
            if c2 = ':' then
              match parseValue fuel r3 with
              | none => none
              | some (v, r4) =>
                match skipWs r4 with
                | [] => none
                | c3 :: r5 =>
                  if c3 = ',' then
                    match parseMembers fuel r5 with
                    | some (ms, r6) => some (.cons ⟨kcs⟩ v ms, r6)
                    | none => none
                  else if c3 = rbrace then some (.cons ⟨kcs⟩ v .nil, r5)
                  else none
            else none
      else none
end

/-- `json.loads` on the fragment: parse one value, then require only
trailing whitespace.  The fuel `length + 1` suffices for any input the
printer produces. -/
def parseJson (s : String) : Option PJson :=
  match parseValue (s.data.length + 1) s.data with
  | some (v, rest) => if skipWs rest = [] then some v else none
  | none => none

/-- A list of strings as a JSON array. -/
def strPArr : List String → PArr
  | [] => .nil
  | s :: rest => .cons (.str s) (strPArr rest)

/-- A `whois_lookup` dict value as a JSON value. -/
def jvalToP : JVal → PJson
  | .null => .null
  | .str s => .str s
  | .list xs => .arr (strPArr xs)

/-- The whois dict as a JSON object (insertion order preserved, as
`json.dump` iterates the dict). -/
def whoisPObj : List (String × JVal) → PObj
  | [] => .nil
  | (k, v) :: rest => .cons k (jvalToP v) (whoisPObj rest)

/-- The DNS mapping as a JSON object. -/
def dnsPObj : List (String × List String) → PObj
  | [] => .nil
  | (k, vs) :: rest => .cons k (.arr (strPArr vs)) (dnsPObj rest)

/-- The members of the serialized `out_data` object, in insertion
order. -/
def reconObj (r : ReconData) : PObj :=
  .cons "domain" (.str r.domain)
    (.cons "whois" (.obj (whoisPObj r.whois))
      (.cons "dns" (.obj (dnsPObj r.dns))
        (.cons "timestamp_utc" (.str r.timestamp_utc) .nil)))

/-- The full serialized ReconResult. -/
def reconJson (r : ReconData) : PJson := .obj (reconObj r)

/-- The exact text `to_json` writes to the output file for a given
result. -/
def to_json_text (r : ReconData) : String := ⟨printVal 0 (reconJson r)⟩

/-- Key lookup in a parsed JSON object. -/
def objGet : PObj → String → Option PJson
  | .nil, _ => none
  | .cons k v t, key => if k = key then some v else objGet t key

/-- Token head characters of a printed JSON value. -/
def tokenHead (c : Char) : Bool := c = 'n' || c = '\"' || c = '[' || c = lbrace

/-! ## Order facts about the code-point comparison -/

theorem lexLe_total : ∀ a b : List Char, lexLe a b = true ∨ lexLe b a = true
  | [], _ => Or.inl rfl
  | _ :: _, [] => Or.inr rfl
  | x :: as, y :: bs => by
    by_cases h1 : x.toNat < y.toNat
    · exact Or.inl (by simp [lexLe, h1])
    · by_cases h2 : y.toNat < x.toNat
      · exact Or.inr (by simp [lexLe, h2])
      · rcases lexLe_total as bs with h | h
        · exact Or.inl (by simp [lexLe, h1, h2, h])
        · exact Or.inr (by simp [lexLe, h1, h2, h])

theorem lexLe_trans :
    ∀ a b c : List Char, lexLe a b = true → lexLe b c = true → lexLe a c = true
  | [], _, _, _, _ => rfl
  | _ :: _, [], _, h1, _ => by simp [lexLe] at h1
  | _ :: _, _ :: _, [], _, h2 => by simp [lexLe] at h2
  | x :: as, y :: bs, z :: cs, h1, h2 => by
    simp only [lexLe] at h1 h2 ⊢
    by_cases hxy : x.toNat < y.toNat
    · by_cases hyz : y.toNat < z.toNat
      · have hxz : x.toNat < z.toNat := Nat.lt_trans hxy hyz
        simp [hxz]
      · by_cases hzy : z.toNat < y.toNat
        · simp [if_neg hyz, if_pos hzy] at h2
        · have hxz : x.toNat < z.toNat := by omega
          simp [hxz]
    · by_cases hyx : y.toNat < x.toNat
      · simp [if_neg hxy, if_pos hyx] at h1
      · simp only [if_neg hxy, if_neg hyx] at h1
        by_cases hyz : y.toNat < z.toNat
        · have hxz : x.toNat < z.toNat := by omega
          simp [hxz]
        · by_cases hzy : z.toNat < y.toNat
          · simp [if_neg hyz, if_pos hzy] at h2
          · simp only [if_neg hyz, if_neg hzy] at h2
            have h3 : ¬ x.toNat < z.toNat := by omega
            have h4 : ¬ z.toNat < x.toNat := by omega
            simp only [if_neg h3, if_neg h4]
            exact lexLe_trans as bs cs h1 h2

instance : IsTotal String pyStrLe := ⟨fun a b => lexLe_total a.data b.data⟩

instance : IsTrans String pyStrLe := ⟨fun a b c => lexLe_trans a.data b.data c.data⟩

/-! ## JSON round-trip lemmas -/

theorem skipWs_cons_not (c : Char) (l : List Char) (h : isWs c = false) :
    skipWs (c :: l) = c :: l := by
  simp [skipWs, h]

theorem skipWs_cons_ws (c : Char) (l : List Char) (h : isWs c = true) :
    skipWs (c :: l) = skipWs l := by
  simp [skipWs, h]

theorem skipWs_spaces (n : Nat) (l : List Char) : skipWs (spaces n ++ l) = skipWs l := by
  induction n with
  | zero => rfl
  | succ n ih =>
    show skipWs (List.replicate (n + 1) ' ' ++ l) = skipWs l
    rw [List.replicate_succ, List.cons_append, skipWs_cons_ws _ _ (by decide)]
    exact ih

theorem skipWs_nl (n : Nat) (l : List Char) : skipWs ('\n' :: (spaces n ++ l)) = skipWs l := by
  rw [skipWs_cons_ws _ _ (by decide), skipWs_spaces]

theorem parseValue_congr (fuel : Nat) (a b : List Char) (h : skipWs a = skipWs b) :
    parseValue fuel a = parseValue fuel b := by
  cases fuel with
  | zero => rfl
  | succ f =>
    simp only [parseValue]
    rw [h]

theorem parseItems_congr (fuel : Nat) (a b : List Char) (h : skipWs a = skipWs b) :
    parseItems fuel a = parseItems fuel b := by
  cases fuel with
  | zero => rfl
  | succ f =>
    simp only [parseItems]
    rw [parseValue_congr f a b h]

theorem parseMembers_congr (fuel : Nat) (a b : List Char) (h : skipWs a = skipWs b) :
    parseMembers fuel a = parseMembers fuel b := by
  cases fuel with
  | zero => rfl
  | succ f =>
    simp only [parseMembers]
    rw [h]

theorem printVal_head (lvl : Nat) (v : PJson) :
    ∃ c cs, printVal lvl v = c :: cs ∧ tokenHead c = true := by
  cases v with
  | null => exact ⟨'n', _, rfl, by decide⟩
  | str s => exact ⟨'\"', _, rfl, by decide⟩
  | arr x =>
    cases x with
    | nil => exact ⟨'[', _, rfl, by decide⟩
    | cons h t => exact ⟨'[', _, rfl, by decide⟩
  | obj x =>
    cases x with
    | nil => exact ⟨lbrace, _, rfl, by decide⟩
    | cons k v t => exact ⟨lbrace, _, rfl, by decide⟩

theorem tokenHead_props (c : Char) (h : tokenHead c = true) :
    isWs c = false ∧ c ≠ ']' ∧ c ≠ rbrace ∧ c ≠ ',' ∧ c ≠ ':' := by
  simp only [tokenHead, Bool.or_eq_true, decide_eq_true_eq] at h
  rcases h with ((h | h) | h) | h <;> subst h <;>
    exact ⟨by decide, by decide, by decide, by decide, by decide⟩

theorem printVal_length_pos (lvl : Nat) (v : PJson) : 1 ≤ (printVal lvl v).length := by
  obtain ⟨c, cs, heq, -⟩ := printVal_head lvl v
  simp [heq]

theorem printString_length_pos (s : String) : 1 ≤ (printString s).length := by
  simp [printString]

theorem hexValOf_hexDigitChar : ∀ n : Nat, n < 16 → hexValOf (hexDigitChar n) = some n := by
  decide

theorem hexValOf_zero : hexValOf '0' = some 0 := by decide

theorem parseStringAux_escape :
    ∀ (cs rest : List Char), parseStringAux (escapeList cs ++ '\"' :: rest) = some (cs, rest)
  | [], rest => by
    show parseStringAux ('\"' :: rest) = some ([], rest)
    rw [parseStringAux.eq_def]
    simp
  | c :: cs, rest => by
    have IH := parseStringAux_escape cs rest
    by_cases h1 : c = '\"'
    · subst h1
      show parseStringAux ('\\' :: '\"' :: (escapeList cs ++ '\"' :: rest)) =
        some ('\"' :: cs, rest)
      rw [parseStringAux.eq_def]
      simp [IH]
    · by_cases h2 : c = '\\'
      · subst h2
        show parseStringAux ('\\' :: '\\' :: (escapeList cs ++ '\"' :: rest)) =
          some ('\\' :: cs, rest)
        rw [parseStringAux.eq_def]
        simp [IH]
      · by_cases h3 : c = '\n'
        · subst h3
          show parseStringAux ('\\' :: 'n' :: (escapeList cs ++ '\"' :: rest)) =
            some ('\n' :: cs, rest)
          rw [parseStringAux.eq_def]
          simp [IH]
        · by_cases h4 : c = '\t'
          · subst h4
            show parseStringAux ('\\' :: 't' :: (escapeList cs ++ '\"' :: rest)) =
              some ('\t' :: cs, rest)
            rw [parseStringAux.eq_def]
            simp [IH]
          · by_cases h5 : c = '\r'
            · subst h5
              show parseStringAux ('\\' :: 'r' :: (escapeList cs ++ '\"' :: rest)) =
                some ('\r' :: cs, rest)
              rw [parseStringAux.eq_def]
              simp [IH]
            · by_cases h6 : c = Char.ofNat 8
              · subst h6
                show parseStringAux ('\\' :: 'b' :: (escapeList cs ++ '\"' :: rest)) =
                  some (Char.ofNat 8 :: cs, rest)
                rw [parseStringAux.eq_def]
                simp [IH]
              · by_cases h7 : c = Char.ofNat 12
                · subst h7
                  show parseStringAux ('\\' :: 'f' :: (escapeList cs ++ '\"' :: rest)) =
                    some (Char.ofNat 12 :: cs, rest)
                  rw [parseStringAux.eq_def]
                  simp [IH]
                · by_cases h8 : c.toNat < 32
                  · have hesc : escapeChar c =
                        ['\\', 'u', '0', '0', hexDigitChar (c.toNat / 16),
                          hexDigitChar (c.toNat % 16)] := by
                      simp [escapeChar, h1, h2, h3, h4, h5, h6, h7, h8]
                    have hlist : escapeList (c :: cs) ++ '\"' :: rest =
                        '\\' :: 'u' :: '0' :: '0' :: hexDigitChar (c.toNat / 16) ::
                          hexDigitChar (c.toNat % 16) :: (escapeList cs ++ '\"' :: rest) := by
                      simp [escapeList, hesc]
                    have hd1 : c.toNat / 16 < 16 := by omega
                    have hd2 : c.toNat % 16 < 16 := Nat.mod_lt _ (by omega)
                    have hval : c.toNat / 16 * 16 + c.toNat % 16 = c.toNat := by omega
                    rw [hlist, parseStringAux.eq_def]
                    simp [hexValOf_hexDigitChar _ hd1, hexValOf_hexDigitChar _ hd2,
                      hexValOf_zero, hval, Char.ofNat_toNat, IH]
                  · have hesc : escapeChar c = [c] := by
                      simp [escapeChar, h1, h2, h3, h4, h5, h6, h7, h8]
                    have hlist : escapeList (c :: cs) ++ '\"' :: rest =
                        c :: (escapeList cs ++ '\"' :: rest) := by
                      simp [escapeList, hesc]
                    rw [hlist, parseStringAux.eq_def]
                    simp [h1, h2, IH]

theorem parseValue_null (fuel : Nat) (l : List Char) :
    parseValue (fuel + 1) ('n' :: 'u' :: 'l' :: 'l' :: l) = some (.null, l) := by
  rw [parseValue.eq_def]
  simp [skipWs_cons_not, isWs]

theorem parseValue_str (fuel : Nat) (cs rest : List Char) :
    parseValue (fuel + 1) ('\"' :: (escapeList cs ++ '\"' :: rest)) =
      some (.str ⟨cs⟩, rest) := by
  rw [parseValue.eq_def]
  simp [skipWs_cons_not, isWs, parseStringAux_escape]

theorem parseValue_arr_nil (fuel : Nat) (l : List Char) :
    parseValue (fuel + 1) ('[' :: ']' :: l) = some (.arr .nil, l) := by
  rw [parseValue.eq_def]
  simp [skipWs_cons_not, isWs]

theorem parseValue_arr_cons (fuel n : Nat) (c2 : Char) (l2 : List Char)
    (hc : tokenHead c2 = true) :
    parseValue (fuel + 1) ('[' :: '\n' :: (spaces n ++ (c2 :: l2))) =
      (parseItems fuel (c2 :: l2)).map (fun p => (.arr p.1, p.2)) := by
  obtain ⟨hws, hrb, hbr, hcm, hcl⟩ := tokenHead_props c2 hc
  rw [parseValue.eq_def]
  simp only [skipWs_cons_not '[' _ (by decide), skipWs_nl]
  rw [skipWs_cons_not _ _ hws]
  simp [hrb]

theorem parseValue_obj_nil (fuel : Nat) (l : List Char) :
    parseValue (fuel + 1) (lbrace :: rbrace :: l) = some (.obj .nil, l) := by
  rw [parseValue.eq_def]
  simp [skipWs_cons_not, isWs, lbrace, rbrace]

theorem parseValue_obj_cons (fuel n : Nat) (l2 : List Char) :
    parseValue (fuel + 1) (lbrace :: '\n' :: (spaces n ++ ('\"' :: l2))) =
      (parseMembers fuel ('\"' :: l2)).map (fun p => (.obj p.1, p.2)) := by
  rw [parseValue.eq_def]
  simp [skipWs_nl, skipWs_cons_not, isWs, lbrace, rbrace]

theorem parseItems_succ (fuel : Nat) (input : List Char) :
    parseItems (fuel + 1) input =
      match parseValue fuel input with
      | none => none
      | some (v, r) =>
        match skipWs r with
        | [] => none
        | c :: r2 =>
          if c = ',' then
            match parseItems fuel r2 with
            | some (vs, r3) => some (.cons v vs, r3)
            | none => none
          else if c = ']' then some (.cons v .nil, r2)
          else none := by
  rw [parseItems.eq_def]

theorem parseMembers_step (fuel : Nat) (cs X : List Char) :
    parseMembers (fuel + 1) ('\"' :: (escapeList cs ++ '\"' :: ':' :: ' ' :: X)) =
      (match parseValue fuel (' ' :: X) with
       | none => none
       | some (v, r4) =>
         match skipWs r4 with
         | [] => none
         | c3 :: r5 =>
           if c3 = ',' then
             match parseMembers fuel r5 with
             | some (ms, r6) => some (.cons ⟨cs⟩ v ms, r6)
             | none => none
           else if c3 = rbrace then some (.cons ⟨cs⟩ v .nil, r5)
           else none) := by
  rw [parseMembers.eq_def]
  simp [parseStringAux_escape, skipWs_cons_not, isWs]

theorem parse_print_all (fuel : Nat) :
    (∀ (v : PJson) (lvl : Nat) (rest : List Char), (printVal lvl v).length ≤ fuel →
      parseValue fuel (printVal lvl v ++ rest) = some (v, rest)) ∧
    (∀ (h : PJson) (t : PArr) (lvl m : Nat) (rest : List Char),
      (printVal lvl h).length + (printArrTail lvl t).length + 1 ≤ fuel →
      parseItems fuel
        (printVal lvl h ++ (printArrTail lvl t ++ '\n' :: (spaces m ++ ']' :: rest))) =
        some (.cons h t, rest)) ∧
    (∀ (k : String) (v : PJson) (t : PObj) (lvl m : Nat) (rest : List Char),
      (printString k).length + (printVal lvl v).length + (printObjTail lvl t).length + 1 ≤
        fuel →
      parseMembers fuel
        (printString k ++ ':' :: ' ' :: (printVal lvl v ++ (printObjTail lvl t ++
          '\n' :: (spaces m ++ rbrace :: rest)))) =
        some (.cons k v t, rest)) := by
  induction fuel with
  | zero =>
    refine ⟨fun v lvl rest hlen => ?_, fun h t lvl m rest hlen => by omega,
      fun k v t lvl m rest hlen => by omega⟩
    have := printVal_length_pos lvl v
    omega
  | succ fuel ih =>
    obtain ⟨ihV, ihI, ihM⟩ := ih
    refine ⟨?_, ?_, ?_⟩
    · intro v lvl rest hlen
      cases v with
      | null => exact parseValue_null fuel rest
      | str s =>
        have hp : printVal lvl (.str s) ++ rest =
            '\"' :: (escapeList s.data ++ '\"' :: rest) := by
          simp [printVal, printString]
        rw [hp]
        exact parseValue_str fuel s.data rest
      | arr x =>
        cases x with
        | nil => exact parseValue_arr_nil fuel rest
        | cons h t =>
          obtain ⟨c0, cs0, hhead, htok⟩ := printVal_head (lvl + 1) h
          have hp : printVal lvl (.arr (.cons h t)) ++ rest =
              '[' :: '\n' :: (spaces ((lvl + 1) * 2) ++ (c0 :: (cs0 ++
                (printArrTail (lvl + 1) t ++
                  '\n' :: (spaces (lvl * 2) ++ ']' :: rest))))) := by
            simp [printVal, hhead]
          rw [hp, parseValue_arr_cons fuel _ c0 _ htok]
          have hb : c0 :: (cs0 ++ (printArrTail (lvl + 1) t ++
              '\n' :: (spaces (lvl * 2) ++ ']' :: rest))) =
              printVal (lvl + 1) h ++ (printArrTail (lvl + 1) t ++
                '\n' :: (spaces (lvl * 2) ++ ']' :: rest)) := by
            rw [hhead]
            simp
          rw [hb]
          have hfa : (printVal (lvl + 1) h).length + (printArrTail (lvl + 1) t).length + 1 ≤
              fuel := by
            simp [printVal, spaces] at hlen
            omega
          rw [ihI h t (lvl + 1) (lvl * 2) rest hfa]
          rfl
      | obj x =>
        cases x with
        | nil => exact parseValue_obj_nil fuel rest
        | cons k v t =>
          have hp : printVal lvl (.obj (.cons k v t)) ++ rest =
              lbrace :: '\n' :: (spaces ((lvl + 1) * 2) ++ ('\"' :: (escapeList k.data ++
                '\"' :: ':' :: ' ' :: (printVal (lvl + 1) v ++ (printObjTail (lvl + 1) t ++
                  '\n' :: (spaces (lvl * 2) ++ rbrace :: rest)))))) := by
            simp [printVal, printString]
          rw [hp, parseValue_obj_cons]
          have hb : ('\"' :: (escapeList k.data ++ '\"' :: ':' :: ' ' ::
              (printVal (lvl + 1) v ++ (printObjTail (lvl + 1) t ++
                '\n' :: (spaces (lvl * 2) ++ rbrace :: rest))))) =
              printString k ++ ':' :: ' ' :: (printVal (lvl + 1) v ++ (printObjTail (lvl + 1) t ++
                '\n' :: (spaces (lvl * 2) ++ rbrace :: rest))) := by
            simp [printString]
          rw [hb]
          have hfm : (printString k).length + (printVal (lvl + 1) v).length +
              (printObjTail (lvl + 1) t).length + 1 ≤ fuel := by
            simp [printVal, spaces] at hlen
            omega
          rw [ihM k v t (lvl + 1) (lvl * 2) rest hfm]
          rfl
    · intro h t lvl m rest hlen
      rw [parseItems_succ]
      have hfv : (printVal lvl h).length ≤ fuel := by omega
      rw [ihV h lvl _ hfv]
      cases t with
      | nil =>
        simp only [printArrTail, List.nil_append, skipWs_nl,
          skipWs_cons_not ']' _ (by decide)]
        simp
      | cons h2 t2 =>
        have hr : printArrTail lvl (.cons h2 t2) ++ '\n' :: (spaces m ++ ']' :: rest) =
            ',' :: '\n' :: (spaces (lvl * 2) ++ (printVal lvl h2 ++ (printArrTail lvl t2 ++
              '\n' :: (spaces m ++ ']' :: rest)))) := by
          simp [printArrTail]
        rw [hr]
        simp only [skipWs_cons_not ',' _ (by decide)]
        rw [parseItems_congr fuel _ (printVal lvl h2 ++ (printArrTail lvl t2 ++
          '\n' :: (spaces m ++ ']' :: rest))) (skipWs_nl _ _)]
        have hfi : (printVal lvl h2).length + (printArrTail lvl t2).length + 1 ≤ fuel := by
          have hpos := printVal_length_pos lvl h
          simp [printArrTail, spaces] at hlen
          omega
        rw [ihI h2 t2 lvl m rest hfi]
        rfl
    · intro k v t lvl m rest hlen
      have hp : printString k ++ ':' :: ' ' :: (printVal lvl v ++ (printObjTail lvl t ++
          '\n' :: (spaces m ++ rbrace :: rest))) =
          '\"' :: (escapeList k.data ++ '\"' :: ':' :: ' ' :: (printVal lvl v ++
            (printObjTail lvl t ++ '\n' :: (spaces m ++ rbrace :: rest)))) := by
        simp [printString]
      rw [hp, parseMembers_step]
      rw [parseValue_congr fuel (' ' :: (printVal lvl v ++ (printObjTail lvl t ++
        '\n' :: (spaces m ++ rbrace :: rest)))) _ (skipWs_cons_ws ' ' _ (by decide))]
      have hfv : (printVal lvl v).length ≤ fuel := by
        have := printString_length_pos k
        omega
      rw [ihV v lvl _ hfv]
      cases t with
      | nil =>
        simp only [printObjTail, List.nil_append, skipWs_nl,
          skipWs_cons_not rbrace _ (by decide)]
        simp [rbrace]
      | cons k2 v2 t2 =>
        have hr : printObjTail lvl (.cons k2 v2 t2) ++
            '\n' :: (spaces m ++ rbrace :: rest) =
            ',' :: '\n' :: (spaces (lvl * 2) ++ (printString k2 ++ ':' :: ' ' ::
              (printVal lvl v2 ++ (printObjTail lvl t2 ++
                '\n' :: (spaces m ++ rbrace :: rest))))) := by
          simp [printObjTail]
        rw [hr]
        simp only [skipWs_cons_not ',' _ (by decide)]
        rw [parseMembers_congr fuel _ (printString k2 ++ ':' :: ' ' ::
          (printVal lvl v2 ++ (printObjTail lvl t2 ++
            '\n' :: (spaces m ++ rbrace :: rest)))) (skipWs_nl _ _)]
        have hfm : (printString k2).length + (printVal lvl v2).length +
            (printObjTail lvl t2).length + 1 ≤ fuel := by
          have h1 := printString_length_pos k
          have h2 := printVal_length_pos lvl v
          simp [printObjTail, spaces] at hlen
          omega
        rw [ihM k2 v2 t2 lvl m rest hfm]
        rfl

/-! ## Claim theorems (error handling and DNS) -/

/-- C1: whenever the WHOIS client raises, `whois_lookup` does not itself
raise (it is total) and returns a record with exactly one key, `error`,
whose value is `"WHOIS failed: "` followed by the exception's message. -/
theorem whois_lookup_error_record (domain msg : String) :
    whois_lookup domain (.error msg) = [("error", .str ("WHOIS failed: " ++ msg))] ∧
    (whois_lookup domain (.error msg)).map Prod.fst = ["error"] :=
  ⟨rfl, rfl⟩

/-- C2: `dns_query` never throws: it returns exactly `["NXDOMAIN"]` on a
domain-not-found outcome, exactly `[]` on a no-records outcome, and exactly
`["DNS error: <message>"]` on any other resolution failure. -/
theorem dns_query_error_handling (R : Resolver) (domain rtype : String) :
    (R domain rtype = .nxdomain → dns_query R domain rtype = ["NXDOMAIN"]) ∧
    (R domain rtype = .noAnswer → dns_query R domain rtype = []) ∧
    (∀ msg, R domain rtype = .dnsError msg →
      dns_query R domain rtype = ["DNS error: " ++ msg]) := by
  refine ⟨fun h => ?_, fun h => ?_, fun msg h => ?_⟩ <;> simp [dns_query, h]

/-- Witness for C2 at a concrete resolver and concrete inputs. -/
theorem dns_query_error_handling_witness :
    dns_query failResolver "example.com" "A" = ["NXDOMAIN"] ∧
    dns_query failResolver "example.com" "MX" = [] ∧
    dns_query failResolver "example.com" "TXT" = ["DNS error: boom"] :=
  ⟨(dns_query_error_handling failResolver "example.com" "A").1 rfl,
   (dns_query_error_handling failResolver "example.com" "MX").2.1 rfl,
   (dns_query_error_handling failResolver "example.com" "TXT").2.2 "boom" rfl⟩

/-- C3: for every resolver behaviour and domain, `gather_dns` returns a
mapping with exactly the 8 keys `A, AAAA, MX, TXT, NS, CNAME, SPF, DMARC`
in that order; each base key holds the result of its `dns_query` call; the
instrumented run makes exactly 7 resolver calls — the six base types
against the domain, in order, then one TXT query against
`_dmarc.<domain>`; `SPF` is derived from the TXT results and `DMARC` from
the extra query. -/
theorem gather_dns_shape (R : Resolver) (domain : String) :
    (gather_dns R domain).map Prod.fst =
      ["A", "AAAA", "MX", "TXT", "NS", "CNAME", "SPF", "DMARC"] ∧
    ((gather_dns R domain).map Prod.fst).length = 8 ∧
    (gather_dnsT R domain).1 = gather_dns R domain ∧
    (gather_dnsT R domain).2 =
      [(domain, "A"), (domain, "AAAA"), (domain, "MX"), (domain, "TXT"),
        (domain, "NS"), (domain, "CNAME"), ("_dmarc." ++ domain, "TXT")] ∧
    (gather_dnsT R domain).2.length = 7 ∧
    (gather_dns R domain).lookup "A" = some (dns_query R domain "A") ∧
    (gather_dns R domain).lookup "AAAA" = some (dns_query R domain "AAAA") ∧
    (gather_dns R domain).lookup "MX" = some (dns_query R domain "MX") ∧
    (gather_dns R domain).lookup "TXT" = some (dns_query R domain "TXT") ∧
    (gather_dns R domain).lookup "NS" = some (dns_query R domain "NS") ∧
    (gather_dns R domain).lookup "CNAME" = some (dns_query R domain "CNAME") ∧
    (gather_dns R domain).lookup "SPF" =
      some ((dns_query R domain "TXT").filter (fun t => pyStartsWith (pyLower t) "v=spf1")) ∧
    (gather_dns R domain).lookup "DMARC" =
      some ((dns_query R ("_dmarc." ++ domain) "TXT").filter
        (fun t => pyStartsWith (pyLower t) "v=dmarc1")) :=
  ⟨rfl, rfl, rfl, rfl, rfl, rfl, rfl, rfl, rfl, rfl, rfl, rfl, rfl⟩

/-- C5: `SPF` is exactly the order-preserving filter of the TXT values
whose lowercased form starts with `v=spf1`, and `DMARC` the filter (on
`v=dmarc1`) of the values of the separate `_dmarc.<domain>` TXT query; on
the claim's concrete TXT values the SPF result keeps exactly the
`v=spf1 ...` entry. -/
theorem spf_dmarc_derivation (R : Resolver) (domain : String) :
    (gather_dns R domain).lookup "SPF" =
      some ((dns_query R domain "TXT").filter (fun t => pyStartsWith (pyLower t) "v=spf1")) ∧
    (gather_dns R domain).lookup "DMARC" =
      some ((dns_query R ("_dmarc." ++ domain) "TXT").filter
        (fun t => pyStartsWith (pyLower t) "v=dmarc1")) ∧
    (gather_dns spfExampleResolver "example.com").lookup "SPF" =
      some ["v=spf1 include:_spf.example.com ~all"] :=
  ⟨rfl, rfl, by decide⟩

/-! ## Claim theorems (WHOIS normalization) -/

/-- C4 (counterexample): on the claim's own concrete client value the
normalized name servers are not lowercased — `strip(".")` only removes
dots — so the claimed result `["ns1.example.com", "ns2.example.com"]` is
wrong. -/
theorem normalize_ns_claim_false :
    normalize_ns (.listv ["NS1.EXAMPLE.COM.", "ns2.example.com", "ns1.example.com."]) ≠
      ["ns1.example.com", "ns2.example.com"] := by decide

/-- C4 (amended): `name_servers` is the list obtained from the client
value coerced to a list, discarding falsy (empty) entries, stripping
leading and trailing `'.'` characters from each entry (case and inner
whitespace untouched), deduplicating via a set, and sorting ascending by
code point; on the example input the result is
`["NS1.EXAMPLE.COM", "ns1.example.com", "ns2.example.com"]`. -/
theorem normalize_ns_amended (v : NsVal) :
    List.Sorted pyStrLe (normalize_ns v) ∧
    (normalize_ns v).Nodup ∧
    (∀ s, s ∈ normalize_ns v ↔ ∃ raw, raw ∈ safe_list v ∧ raw ≠ "" ∧ stripDots raw = s) ∧
    normalize_ns (.listv ["NS1.EXAMPLE.COM.", "ns2.example.com", "ns1.example.com."]) =
      ["NS1.EXAMPLE.COM", "ns1.example.com", "ns2.example.com"] := by
  refine ⟨List.sorted_insertionSort _ _, ?_, ?_, by decide⟩
  · exact ((List.perm_insertionSort pyStrLe _).nodup_iff).mpr (List.nodup_dedup _)
  · intro s
    simp only [normalize_ns, pySorted, List.mem_insertionSort, List.mem_dedup, List.mem_map,
      List.mem_filter, decide_not, Bool.not_eq_eq_eq_not, Bool.not_true, decide_eq_false_iff_not]
    constructor
    · rintro ⟨raw, ⟨hmem, hne⟩, hstrip⟩
      exact ⟨raw, hmem, hne, hstrip⟩
    · rintro ⟨raw, hmem, hne, hstrip⟩
      exact ⟨raw, ⟨hmem, hne⟩, hstrip⟩

/-- C7: date-field normalization: a (nonempty, hence truthy) sequence is
normalized by taking its first element; a datetime-like value is formatted
by `strftime("%Y-%m-%d %H:%M:%S")`; a truthy non-date-like value falls
back to its `str()` form; `None` stays `None`; and the format produces
e.g. `"2024-01-05 03:07:09"`. -/
theorem fmt_date_spec :
    (∀ x xs, fmt_date (.seq (x :: xs)) = some (fmtScalar x)) ∧
    (∀ t, fmt_date (.scalar (.dt t)) = some (strftimeYmdHms t)) ∧
    (∀ s, fmt_date (.scalar (.plain true s)) = some s) ∧
    fmt_date (.scalar .pynone) = none ∧
    strftimeYmdHms ⟨2024, 1, 5, 3, 7, 9⟩ = "2024-01-05 03:07:09" := by
  refine ⟨fun x xs => ?_, fun t => ?_, fun s => ?_, rfl, by decide⟩ <;>
    simp [fmt_date, dateTruthy, scalarTruthy, fmtScalar]

/-- C10: the dict returned by `whois_lookup` has exactly one of two
shapes: on a raising client, the single key `error`; on a successful
client, exactly the eight keys
`domain, registrar, creation_date, expiration_date, updated_date,
name_servers, status, raw` (and no `error` key), with the `domain` field
equal to the input domain and the `raw` string capped at 2000
characters. -/
theorem whois_lookup_shape (domain msg : String) (w : WhoisObj) :
    (whois_lookup domain (.error msg)).map Prod.fst = ["error"] ∧
    (whois_lookup domain (.ok w)).map Prod.fst =
      ["domain", "registrar", "creation_date", "expiration_date", "updated_date",
        "name_servers", "status", "raw"] ∧
    "error" ∉ (whois_lookup domain (.ok w)).map Prod.fst ∧
    (whois_lookup domain (.ok w)).lookup "domain" = some (.str domain) ∧
    (whois_lookup domain (.ok w)).lookup "raw" = some (.str (pyTake2000 w.text)) ∧
    (pyTake2000 w.text).length ≤ 2000 := by
  refine ⟨rfl, rfl, ?_, rfl, rfl, ?_⟩
  · show "error" ∉ ["domain", "registrar", "creation_date", "expiration_date", "updated_date",
      "name_servers", "status", "raw"]
    decide
  · show (w.text.data.take 2000).length ≤ 2000
    simp [List.length_take]

/-! ## Claim theorems (exporters and orchestrator) -/

/-- C6: the CSV row sequence is exactly: the `Section, Key, Value` header;
then the single `WHOIS, error, <message>` row when the whois record has an
`error` key and otherwise the seven WHOIS rows for domain, registrar,
creation_date, updated_date, expiration_date, semicolon-joined
name_servers and semicolon-joined status, in that order; then, per DNS
record type in mapping order, one `DNS, <type>, -` row when the value list
is empty and one `DNS, <type>, <value>` row per value otherwise.  On the
concrete example, `A = ["1.2.3.4"]` yields the row `DNS, A, 1.2.3.4` and
`MX = []` yields the row `DNS, MX, -`. -/
theorem to_csv_rows_spec (data : ReconData) :
    ((data.whois.lookup "error").isSome →
      to_csv_rows data =
        [[.str "Section", .str "Key", .str "Value"],
         [.str "WHOIS", .str "error", dictGet data.whois "error"]] ++
        data.dns.flatMap (fun p =>
          if p.2.isEmpty then [[.str "DNS", .str p.1, .str "-"]]
          else p.2.map (fun v => [.str "DNS", .str p.1, .str v]))) ∧
    (data.whois.lookup "error" = none →
      to_csv_rows data =
        [[.str "Section", .str "Key", .str "Value"],
         [.str "WHOIS", .str "domain", dictGet data.whois "domain"],
         [.str "WHOIS", .str "registrar", dictGet data.whois "registrar"],
         [.str "WHOIS", .str "creation_date", dictGet data.whois "creation_date"],
         [.str "WHOIS", .str "updated_date", dictGet data.whois "updated_date"],
         [.str "WHOIS", .str "expiration_date", dictGet data.whois "expiration_date"],
         [.str "WHOIS", .str "name_servers", .str (semijoin (getJoinList data.whois "name_servers"))],
         [.str "WHOIS", .str "status", .str (semijoin (getJoinList data.whois "status"))]] ++
        data.dns.flatMap (fun p =>
          if p.2.isEmpty then [[.str "DNS", .str p.1, .str "-"]]
          else p.2.map (fun v => [.str "DNS", .str p.1, .str v]))) ∧
    [.str "DNS", .str "A", .str "1.2.3.4"] ∈ to_csv_rows exampleRecon ∧
    [.str "DNS", .str "MX", .str "-"] ∈ to_csv_rows exampleRecon := by
  refine ⟨fun h => ?_, fun h => ?_, by decide, by decide⟩
  · simp [to_csv_rows, h]
  · simp [to_csv_rows, h]

/-- Witness for C6: both branches of the row layout at concrete results —
a failed WHOIS lookup produces the single error row, an error-free one the
seven field rows; the DNS rows follow in both cases. -/
theorem to_csv_rows_spec_witness :
    (to_csv_rows errorRecon =
      [[.str "Section", .str "Key", .str "Value"],
       [.str "WHOIS", .str "error", dictGet errorRecon.whois "error"]] ++
      errorRecon.dns.flatMap (fun p =>
        if p.2.isEmpty then [[.str "DNS", .str p.1, .str "-"]]
        else p.2.map (fun v => [.str "DNS", .str p.1, .str v]))) ∧
    (to_csv_rows exampleRecon =
      [[.str "Section", .str "Key", .str "Value"],
       [.str "WHOIS", .str "domain", dictGet exampleRecon.whois "domain"],
       [.str "WHOIS", .str "registrar", dictGet exampleRecon.whois "registrar"],
       [.str "WHOIS", .str "creation_date", dictGet exampleRecon.whois "creation_date"],
       [.str "WHOIS", .str "updated_date", dictGet exampleRecon.whois "updated_date"],
       [.str "WHOIS", .str "expiration_date", dictGet exampleRecon.whois "expiration_date"],
       [.str "WHOIS", .str "name_servers",
         .str (semijoin (getJoinList exampleRecon.whois "name_servers"))],
       [.str "WHOIS", .str "status", .str (semijoin (getJoinList exampleRecon.whois "status"))]] ++
      exampleRecon.dns.flatMap (fun p =>
        if p.2.isEmpty then [[.str "DNS", .str p.1, .str "-"]]
        else p.2.map (fun v => [.str "DNS", .str p.1, .str v]))) :=
  ⟨(to_csv_rows_spec errorRecon).1 rfl, (to_csv_rows_spec exampleRecon).2.1 rfl⟩

/-- C8 (counterexample): the dispatch compares `fmt.lower()`, not the
format value itself: `"JSON"` is neither `"json"` nor `"csv"`, yet `run`
invokes the JSON exporter instead of printing the unknown-format error. -/
theorem run_export_claim_false :
    "JSON" ≠ "json" ∧ "JSON" ≠ "csv" ∧
    run_export (some "out.json") "JSON" = .wroteJson "out.json" ∧
    run_export (some "out.json") "JSON" ≠ .printedUnknownFormat := by
  refine ⟨by decide, by decide, ?_, ?_⟩ <;> decide

/-- C8 (amended): with a (truthy) output path given, `run` dispatches on
the lowercased format value: lowercase form `json` goes to the JSON
exporter, lowercase form `csv` to the CSV exporter, and any other value
prints an error message and writes no file — non-fatally, `run` still
completing. -/
theorem run_export_dispatch (path fmt : String) (hp : path ≠ "") :
    (pyLower fmt = "json" → run_export (some path) fmt = .wroteJson path) ∧
    (pyLower fmt = "csv" → run_export (some path) fmt = .wroteCsv path) ∧
    (pyLower fmt ≠ "json" → pyLower fmt ≠ "csv" →
      run_export (some path) fmt = .printedUnknownFormat) := by
  refine ⟨fun h => ?_, fun h => ?_, fun h1 h2 => ?_⟩
  · simp [run_export, hp, h]
  · simp [run_export, hp, h]
  · simp [run_export, hp, h1, h2]

/-- C9: serializing a ReconResult with the JSON exporter (the exact text
`to_json` writes: pretty-printed, 2-space indent, non-ASCII preserved) and
then parsing the produced JSON text yields exactly the serialized
structure back; in particular the parsed object's `domain`, `whois` and
`dns` members are identical to the original result's fields. -/
theorem to_json_roundtrip (r : ReconData) :
    parseJson (to_json_text r) = some (reconJson r) ∧
    objGet (reconObj r) "domain" = some (.str r.domain) ∧
    objGet (reconObj r) "whois" = some (.obj (whoisPObj r.whois)) ∧
    objGet (reconObj r) "dns" = some (.obj (dnsPObj r.dns)) := by
  refine ⟨?_, rfl, rfl, rfl⟩
  have h := (parse_print_all ((printVal 0 (reconJson r)).length + 1)).1 (reconJson r) 0 []
    (by omega)
  rw [List.append_nil] at h
  show (match parseValue ((printVal 0 (reconJson r)).length + 1) (printVal 0 (reconJson r)) with
    | some (v, rest) => if skipWs rest = [] then some v else none
    | none => none) = some (reconJson r)
  rw [h]
  simp [skipWs]

/-- Witness for C8's amended dispatch at concrete paths and formats,
including a mixed-case `CSV` and an unknown `xml`. -/
theorem run_export_dispatch_witness :
    run_export (some "out.json") "json" = .wroteJson "out.json" ∧
    run_export (some "out.csv") "CSV" = .wroteCsv "out.csv" ∧
    run_export (some "out.txt") "xml" = .printedUnknownFormat :=
  ⟨(run_export_dispatch "out.json" "json" (by decide)).1 rfl,
   (run_export_dispatch "out.csv" "CSV" (by decide)).2.1 (by decide),
   (run_export_dispatch "out.txt" "xml" (by decide)).2.2 (by decide) (by decide)⟩

end Recon
